import Mathlib

/-!
Verification development for the `st2common.models.api` fragment
(`base.py` and `execution.py`): a shallow embedding of the `BaseAPI`
class, the `jsexpose` decorator's `callfunction` wrapper, and the
`ActionExecutionAPI` conversion methods, together with theorems about
their error handling, argument coercion and timestamp round-tripping.

External collaborators (the JSON Schema validator, the `isotime`
formatting utilities, the mongo escape helper) are black boxes per the
specification and appear as function parameters of the embedded code.
-/

namespace St2

/-- Python values flowing through the API layer: JSON-style values plus
an abstract datetime value (`time`), which stands for the `datetime`
objects held in persistence documents before ISO formatting. -/
inductive JVal where
  | null
  | bool (b : Bool)
  | num (n : Int)
  | str (s : String)
  | time (t : Int)
  | arr (xs : List JVal)
  | obj (fields : List (String × JVal))

/-- Python dictionaries with string keys, as associative lists. -/
abbrev Dict := List (String × JVal)

/-- HTTP headers mapping. -/
abbrev Headers := List (String × String)

/-- Python truthiness of a value (`if value:`): `None`, `False`, `0`,
empty string, empty list and empty dict are falsy. -/
def truthy : JVal → Bool
  | JVal.null => false
  | JVal.bool b => b
  | JVal.num n => n != 0
  | JVal.str s => !s.isEmpty
  | JVal.time _ => true
  | JVal.arr xs => !xs.isEmpty
  | JVal.obj fs => !fs.isEmpty

/-- Whether a value is Python `None`. -/
def JVal.isNull : JVal → Bool
  | JVal.null => true
  | _ => false

/-- Python dict assignment `d[k] = v`: updates the entry in place when
the key exists, appends it otherwise. -/
def dictSet (d : Dict) (k : String) (v : JVal) : Dict :=
  match d with
  | [] => [(k, v)]
  | (k', v') :: rest => if k' = k then (k, v) :: rest else (k', v') :: dictSet rest k v

/-- Python `del d[k]` / `d.pop(k)`: removes the entry for `k`. -/
def dictDel (d : Dict) (k : String) : Dict :=
  match d with
  | [] => []
  | (k', v') :: rest => if k' = k then rest else (k', v') :: dictDel rest k

/-- Python `str(value)` on the values we model (used on the `_id`
ObjectId in `BaseAPI._from_model`). -/
def pyStr : JVal → String
  | JVal.null => "None"
  | JVal.bool b => if b then "True" else "False"
  | JVal.num n => toString n
  | JVal.str s => s
  | JVal.time t => toString t
  | JVal.arr _ => "<list>"
  | JVal.obj _ => "<dict>"

/-- Exceptions that can be raised during request handling: the webob
framework HTTP exceptions caught at `base.py:228` and `base.py:232`
(carrying `wsgi_response.status_code`, the bytestring
`wsgi_response.body` — webob response bodies are bytes, never dicts —
and `headers`), the jsonschema `ValidationError` caught at
`base.py:184`, the `AssertionError` of the `assert` in `_handle_error`
(`base.py:108`), and the builtin exceptions the wrapper's control flow
depends on. -/
inductive PyExc where
  | httpUnauthorized (status : Nat) (body : String) (headers : Headers) (msg : String)
  | httpException (status : Nat) (body : String) (headers : Headers) (msg : String)
  | validationError (msg : String)
  | indexError (msg : String)
  | keyError (msg : String)
  | typeError (msg : String)
  | assertionError (msg : String)
  | other (msg : String)

/-- Python 2 `e.message` of an exception, read by `_handle_error`; a
bare `assert` raises `AssertionError()` whose `message` is `""`. -/
def PyExc.message : PyExc → String
  | PyExc.httpUnauthorized _ _ _ m => m
  | PyExc.httpException _ _ _ m => m
  | PyExc.validationError m => m
  | PyExc.indexError m => m
  | PyExc.keyError m => m
  | PyExc.typeError m => m
  | PyExc.assertionError m => m
  | PyExc.other m => m

/-- Whether an exception is one of the webob framework HTTP exceptions
(`exc.HTTPException`, of which `exc.HTTPUnauthorized` is a subclass). -/
def PyExc.isHTTP : PyExc → Bool
  | PyExc.httpUnauthorized _ _ _ _ => true
  | PyExc.httpException _ _ _ _ => true
  | _ => false

/-- Status code carried by a webob HTTP exception
(`e.wsgi_response.status_code`); 0 for other exceptions. -/
def PyExc.httpStatus : PyExc → Nat
  | PyExc.httpUnauthorized s _ _ _ => s
  | PyExc.httpException s _ _ _ => s
  | _ => 0

/-- Body carried by a webob HTTP exception (`e.wsgi_response.body`, a
bytestring; empty for a freshly raised, unrendered exception). -/
def PyExc.httpBody : PyExc → String
  | PyExc.httpUnauthorized _ b _ _ => b
  | PyExc.httpException _ b _ _ => b
  | _ => ""

/-- Headers carried by a webob HTTP exception (`e.headers`). -/
def PyExc.httpHeaders : PyExc → Headers
  | PyExc.httpUnauthorized _ _ h _ => h
  | PyExc.httpException _ _ h _ => h
  | _ => []

mutual

/-- Modelled from the spec: `st2common.util.jsonify.json_encode`
(JSON body encoding is delegated per the spec); a standard
deterministic JSON encoder over the embedded values. -/
def json_encode : JVal → String
  | JVal.null => "null"
  | JVal.bool b => if b then "true" else "false"
  | JVal.num n => toString n
  | JVal.str s => "\"" ++ s ++ "\""
  | JVal.time t => "\"<datetime " ++ toString t ++ ">\""
  | JVal.arr xs => "[" ++ jsonEncodeList xs ++ "]"
  | JVal.obj fs => "\x7b" ++ jsonEncodeFields fs ++ "\x7d"

/-- Comma-separated encoding of array elements. -/
def jsonEncodeList : List JVal → String
  | [] => ""
  | [x] => json_encode x
  | x :: xs => json_encode x ++ "," ++ jsonEncodeList xs

/-- Comma-separated encoding of object fields. -/
def jsonEncodeFields : List (String × JVal) → String
  | [] => ""
  | [(k, v)] => "\"" ++ k ++ "\":" ++ json_encode v
  | (k, v) :: fs => "\"" ++ k ++ "\":" ++ json_encode v ++ "," ++ jsonEncodeFields fs

end

/-- The mutable `pecan.response` state touched by the wrapper. -/
structure Response where
  status : Nat
  headers : Headers

/-- What `callfunction` hands back to the framework: either a
JSON-encoded string (`json_encode(...)` results) or the raw result when
the content type is not `application/json`. -/
inductive CallRet where
  | encoded (s : String)
  | raw (v : JVal)

/-- A value passed as the `body` argument of `_handle_error`: the call
sites pass either nothing (`None`), or a webob exception's
`wsgi_response.body`, which is a bytestring. -/
inductive ErrBody where
  | bytes (s : String)
  | dict (d : Dict)

/-- Embedding of `_handle_error` (`base.py:97`): sets the response
status, replaces the headers when a truthy headers value is given,
takes the given body when truthy (else a fresh dict), then
`assert isinstance(error_body, dict)` (`base.py:108`): a truthy
non-dict body — a non-empty bytestring — raises `AssertionError`
*after* status and headers were already set, which is why the mutated
response is returned alongside the raised exception. Otherwise the
exception's `message` is stored under `faultstring` and the JSON
encoding of the body is returned. -/
def handle_error (resp : Response) (message : String) (status_code : Nat)
    (body : Option ErrBody) (headers : Option Headers) :
    Response × Except PyExc CallRet :=
  let resp1 := { resp with status := status_code }
  let resp2 := match headers with
    | some [] => resp1
    | some (h :: hs) => { resp1 with headers := h :: hs }
    | none => resp1
  let error_bodyE : Except PyExc Dict := match body with
    | none => Except.ok []
    | some (ErrBody.dict []) => Except.ok []
    | some (ErrBody.dict (p :: ps)) => Except.ok (p :: ps)
    | some (ErrBody.bytes s) =>
        if s = "" then Except.ok []
        else Except.error (PyExc.assertionError "")
  match error_bodyE with
  | Except.error e => (resp2, Except.error e)
  | Except.ok error_body =>
      (resp2, Except.ok (CallRet.encoded (json_encode
        (JVal.obj (dictSet error_body "faultstring" (JVal.str message))))))

/-- A type from the `arg_types` list: a callable applied to one
argument, which may raise. -/
abbrev ArgType := JVal → Except PyExc JVal

/-- The wrapped controller method: its `inspect.getargspec` argument
names after `self`, and its behavior on positional arguments and
keyword arguments. -/
structure WrappedFn where
  names : List String
  fn : List JVal → Dict → Except PyExc JVal

/-- The decorator parameters of `jsexpose` (`base.py:113`). -/
structure JsexposeCfg where
  arg_types : Option (List ArgType)
  body_cls : Option (Dict → Except PyExc JVal)
  status_code : Option Nat
  content_type : String

/-- The parts of `pecan.request` the wrapper reads: the set of query
parameter names, whether the request body is non-empty, and the parsed
JSON body (`pecan.request.json`, which may raise). -/
structure Request where
  params : List String
  bodyNonempty : Bool
  json : Except PyExc Dict

/-- Modelled from the spec: `QUERY_PARAM_ATTRIBUTE_NAME`, the
auth-token query parameter name imported from
`st2common.constants.auth` (not under `src/`); its concrete value is
immaterial to every theorem below. -/
def QUERY_PARAM_ATTRIBUTE_NAME : String := "x-auth-token"

/-- State of the argument-coercion loop (`base.py:156`-`base.py:175`):
the accumulated converted arguments `more` (minus the leading `self`),
the remaining positional `args`, the remaining `types` and the current
`kwargs`. -/
structure CoState where
  more : List JVal
  args : List JVal
  types : List ArgType
  kwargs : Dict

/-- The handler body `kwargs[name] = types.pop(0)(kwargs[name])` with
its two inner handlers (`base.py:169`-`base.py:175`): an exhausted
types list only logs a warning; a missing keyword argument is passed
over (after the type has already been popped); an `IndexError` or
`KeyError` raised by the conversion itself is likewise swallowed. -/
def kwAssign (name : String) (st : CoState) : Except PyExc CoState :=
  match st.types with
  | [] => Except.ok st
  | t :: trest =>
    let st1 := { st with types := trest }
    match st1.kwargs.lookup name with
    | none => Except.ok st1
    | some v =>
      match t v with
      | Except.ok v2 => Except.ok { st1 with kwargs := dictSet st1.kwargs name v2 }
      | Except.error (PyExc.indexError _) => Except.ok st1
      | Except.error (PyExc.keyError _) => Except.ok st1
      | Except.error e => Except.error e

/-- One iteration of `for name in names` (`base.py:164`): pop a
positional argument and convert it with the next type; an `IndexError`
from either pop (or from the conversion call itself) falls through to
the keyword-argument branch `kwAssign`. -/
def coerceStep (name : String) (st : CoState) : Except PyExc CoState :=
  match st.args with
  | [] => kwAssign name st
  | a :: argsRest =>
    match st.types with
    | [] => kwAssign name { st with args := argsRest }
    | t :: trest =>
      match t a with
      | Except.ok v =>
          Except.ok { more := st.more ++ [v], args := argsRest, types := trest,
                      kwargs := st.kwargs }
      | Except.error (PyExc.indexError _) =>
          kwAssign name { st with args := argsRest, types := trest }
      | Except.error e => Except.error e

/-- The whole coercion loop over the argspec names. -/
def runCoerce (names : List String) (st : CoState) : Except PyExc CoState :=
  match names with
  | [] => Except.ok st
  | n :: ns =>
    match coerceStep n st with
    | Except.ok st2 => runCoerce ns st2
    | Except.error e => Except.error e

/-- Pointwise application of a list of types to an equally long list of
positional arguments, defined when every application succeeds; used to
state the in-order coercion property of the loop. -/
def zipApplyOk : List ArgType → List JVal → Option (List JVal)
  | [], [] => some []
  | t :: ts, a :: rest =>
    (match t a with
     | Except.ok w => (zipApplyOk ts rest).map (fun ws => w :: ws)
     | Except.error _ => none)
  | _, _ => none

/-- The `noop_codes` list (`base.py:190`): `http_client.NOT_IMPLEMENTED`,
`http_client.METHOD_NOT_ALLOWED`, `http_client.FORBIDDEN`. -/
def noop_codes : List Nat := [501, 405, 403]

/-- The coercion phase (`base.py:160`): when `arg_types` is truthy
(neither `None` nor empty) the loop runs over the argspec `names`,
otherwise the state passes through untouched. `rest` is the positional
argument list after `self` was popped into `more`. -/
def coercePhase (arg_types : Option (List ArgType)) (names : List String)
    (rest : List JVal) (kwargs : Dict) : Except PyExc CoState :=
  match arg_types with
  | some [] => Except.ok { more := [], args := rest, types := [], kwargs := kwargs }
  | some (t :: ts) => runCoerce names { more := [], args := rest, types := t :: ts, kwargs := kwargs }
  | none => Except.ok { more := [], args := rest, types := [], kwargs := kwargs }

/-- The request-body phase (`base.py:177`): when `body_cls` is given,
read the request JSON (empty body means `{}`), construct the body
object and append it to `more`; a jsonschema `ValidationError` is
answered immediately with `_handle_error(e, BAD_REQUEST)` (the `some`
early return; with a `None` body the assert cannot trip), any other
exception propagates, paired with the response state at the raise. -/
def bodyPhase (body_cls : Option (Dict → Except PyExc JVal)) (req : Request)
    (resp : Response) (st : CoState) :
    Except (PyExc × Response) (Option (Response × CallRet) × List JVal) :=
  match body_cls with
  | none => Except.ok (none, st.more)
  | some bc =>
    match (if req.bodyNonempty then req.json else Except.ok []) with
    | Except.error e => Except.error (e, resp)
    | Except.ok data =>
      match bc data with
      | Except.error (PyExc.validationError m) =>
          (match handle_error resp m 400 none none with
           | (resp2, Except.ok ret) => Except.ok (some (resp2, ret), st.more)
           | (resp2, Except.error e) => Except.error (e, resp2))
      | Except.error e => Except.error (e, resp)
      | Except.ok obj => Except.ok (none, st.more ++ [obj])

/-- The body of the outer `try` of `callfunction` (`base.py:155`-`base.py:237`),
after the auth-token removal: an `Except.error` is an exception
reaching the outer `except Exception` handler, paired with the
`pecan.response` state at the moment of the raise (only the assert
inside `_handle_error` can raise after a response mutation). Logging
statements are effect-free here. Steps: pop `self` into `more` (an
empty `args` raises `IndexError`); run the coercion phase; run the
request-body phase; short-circuit on a noop status code with the JSON
encoding of `None`; finally call the wrapped function, translating
webob HTTP exceptions through `_handle_error` with their own status,
bytestring body and headers. -/
def callfunctionE (cfg : JsexposeCfg) (f : WrappedFn) (req : Request)
    (resp : Response) (args : List JVal) (kwargs : Dict) :
    Except (PyExc × Response) (Response × CallRet) :=
  match args with
  | [] => Except.error (PyExc.indexError "pop from empty list", resp)
  | self :: rest =>
    match coercePhase cfg.arg_types f.names rest kwargs with
    | Except.error e => Except.error (e, resp)
    | Except.ok st =>
      match bodyPhase cfg.body_cls req resp st with
      | Except.error er => Except.error er
      | Except.ok (some earlyRet, _) => Except.ok earlyRet
      | Except.ok (none, more) =>
        if cfg.status_code.getD 0 ≠ 0 ∧ cfg.status_code.getD 0 ∈ noop_codes then
          Except.ok ({ resp with status := cfg.status_code.getD 0 },
                     CallRet.encoded (json_encode JVal.null))
        else
          match f.fn ((self :: more) ++ st.args) st.kwargs with
          | Except.ok result =>
            let resp2 := if cfg.status_code.getD 0 ≠ 0 then
                { resp with status := cfg.status_code.getD 0 } else resp
            if cfg.content_type = "application/json" then
              Except.ok (resp2, CallRet.encoded (json_encode result))
            else
              Except.ok (resp2, CallRet.raw result)
          | Except.error (PyExc.httpUnauthorized stc bd hd m) =>
              (match handle_error resp m stc (some (ErrBody.bytes bd)) (some hd) with
               | (resp2, Except.ok ret) => Except.ok (resp2, ret)
               | (resp2, Except.error e) => Except.error (e, resp2))
          | Except.error (PyExc.httpException stc bd hd m) =>
              (match handle_error resp m stc (some (ErrBody.bytes bd)) (some hd) with
               | (resp2, Except.ok ret) => Except.ok (resp2, ret)
               | (resp2, Except.error e) => Except.error (e, resp2))
          | Except.error e => Except.error (e, resp)

/-- The auth-token removal (`base.py:151`): the auth-token query
parameter is deleted from the keyword arguments when it appears both in
the request's query params and in `kwargs`. -/
def stripAuthToken (req : Request) (kwargs : Dict) : Dict :=
  if QUERY_PARAM_ATTRIBUTE_NAME ∈ req.params ∧
      (kwargs.lookup QUERY_PARAM_ATTRIBUTE_NAME).isSome then
    dictDel kwargs QUERY_PARAM_ATTRIBUTE_NAME
  else kwargs

/-- Embedding of the full `callfunction` wrapper (`base.py:134`): the
auth-token removal runs first, then the outer `try` body, and any
exception reaching the outer `except Exception` handler (`base.py:239`)
is translated through `_handle_error(e, INTERNAL_SERVER_ERROR)` applied
to the response state at the raise; with its default `body=None` and
`headers=None` the assert cannot trip and `_handle_error` returns, so
the call is written at its reduction (certified by
`handle_error_at_defaults` below) and no exception propagates. -/
def callfunction (cfg : JsexposeCfg) (f : WrappedFn) (req : Request)
    (resp : Response) (args : List JVal) (kwargs : Dict) : Response × CallRet :=
  match callfunctionE cfg f req resp args (stripAuthToken req kwargs) with
  | Except.ok r => r
  | Except.error (e, respRaise) =>
      ({ respRaise with status := 500 },
       CallRet.encoded (json_encode
         (JVal.obj (dictSet [] "faultstring" (JVal.str e.message)))))

/-- A persistence document object as seen by the API layer: the
specification's contract is that it exposes `to_mongo() -> mapping`
and is consumed read-only. The field `internalState` stands for the
remaining state of the document object, which the conversion methods
never touch. -/
structure DBModel where
  to_mongo : Dict
  internalState : Nat

/-- Result type of the parametrized JSON Schema validator,
`validate(instance, schema) -> raises on violation` (spec section 6). -/
abbrev Validator := Dict → Except PyExc Unit

namespace BaseAPI

/-- Embedding of `BaseAPI.__init__` (`base.py:55`): validate the keyword
arguments with the schema validator, then set each supplied key as an
attribute. The instance's attribute mapping before the call is `self0`;
a raised validation error carries the attribute mapping at the moment
of the raise, which is still `self0` because validation is the first
statement. -/
def initAttrs (validate : Validator) (self0 : Dict) (kw : Dict) :
    Except (PyExc × Dict) Dict :=
  match validate kw with
  | Except.error e => Except.error (e, self0)
  | Except.ok _ => Except.ok (kw.foldl (fun s p => dictSet s p.1 p.2) self0)

/-- Embedding of `BaseAPI._from_model` (`base.py:76`): unescape the
mongo document (`st2common.util.mongoescape.unescape_chars` is not
under `src/` and is passed as the opaque `unescape`), then rename a
present `_id` key to `id` with its value converted by `str`. -/
def from_model_doc (unescape : Dict → Dict) (m : DBModel) : Dict :=
  let doc := unescape m.to_mongo
  match doc.lookup "_id" with
  | some v => dictSet (dictDel doc "_id") "id" (JVal.str (pyStr v))
  | none => doc

/-- Embedding of `BaseAPI.from_model` (`base.py:83`): keep the document
entries whose value `is not None` and construct the instance from them
(its attribute mapping, starting from an empty fresh instance). -/
def from_model (validate : Validator) (unescape : Dict → Dict) (m : DBModel) :
    Except PyExc Dict :=
  let doc := from_model_doc unescape m
  let attrs := doc.filter (fun p => !(p.2.isNull))
  match validate attrs with
  | Except.error e => Except.error e
  | Except.ok _ => Except.ok attrs

end BaseAPI

namespace ActionExecutionAPI

/-- The property names of `ActionExecutionAPI.schema` (`execution.py:43`);
none of them declares a `default`, so the loop default in `to_model` is
always `None`. -/
def schema_props : List String :=
  ["id", "trigger", "trigger_type", "trigger_instance", "rule",
   "action", "runner", "liveaction", "parent", "children"]

/-- Application of `isotime.format(value, offset=False)` (the `isotime`
utility is repository code not under `src/`; the formatting function on
datetimes is the parameter `fmt`); a non-datetime argument raises. -/
def isoFormat (fmt : Int → String) : JVal → Except PyExc String
  | JVal.time t => Except.ok (fmt t)
  | _ => Except.error (PyExc.other "isotime.format: not a datetime")

/-- Application of `isotime.parse` (parameter `prs` on strings); a
non-string argument raises. -/
def isoParse (prs : String → Int) : JVal → Except PyExc JVal
  | JVal.str s => Except.ok (JVal.time (prs s))
  | _ => Except.error (PyExc.other "isotime.parse: not a string")

/-- Embedding of `ActionExecutionAPI.from_model` (`execution.py:69`):
take the document from `BaseAPI._from_model`, format the liveaction's
`start_timestamp` (a missing key raises `KeyError`), format its
`end_timestamp` only when present and not `None`, write both back, keep
the truthy document entries and construct the instance from them. -/
def from_model (fmt : Int → String) (validate : Validator)
    (unescape : Dict → Dict) (m : DBModel) : Except PyExc Dict :=
  let doc := BaseAPI.from_model_doc unescape m
  match doc.lookup "liveaction" with
  | none => Except.error (PyExc.keyError "liveaction")
  | some lvv =>
    match lvv with
    | JVal.obj lv =>
      match lv.lookup "start_timestamp" with
      | none => Except.error (PyExc.keyError "start_timestamp")
      | some stv =>
        match isoFormat fmt stv with
        | Except.error e => Except.error e
        | Except.ok startStr =>
          let endStep : Except PyExc Dict :=
            match lv.lookup "end_timestamp" with
            | none => Except.ok lv
            | some (JVal.null) => Except.ok lv
            | some ev =>
              match isoFormat fmt ev with
              | Except.error e => Except.error e
              | Except.ok endStr => Except.ok (dictSet lv "end_timestamp" (JVal.str endStr))
          match endStep with
          | Except.error e => Except.error e
          | Except.ok lv2 =>
            let lv3 := dictSet lv2 "start_timestamp" (JVal.str startStr)
            let doc2 := dictSet doc "liveaction" (JVal.obj lv3)
            let attrs := doc2.filter (fun p => truthy p.2)
            match validate attrs with
            | Except.error e => Except.error e
            | Except.ok _ => Except.ok attrs
    | _ => Except.error (PyExc.typeError "liveaction is not a dict")

/-- One iteration of the `to_model` copy loop (`execution.py:87`): read
the schema property from the instance (`None` when absent, since no
property declares a `default`), skip it when the value is falsy and the
database field is not required, else set it on the model. -/
def toModelStep (inst : Dict) (required : String → Bool) (model : Dict)
    (attr : String) : Dict :=
  let value := (inst.lookup attr).getD JVal.null
  if !truthy value && !required attr then model
  else dictSet model attr value

/-- Embedding of `ActionExecutionAPI.to_model` (`execution.py:84`): build
a fresh document model, copying each schema property from the instance
unless its value is falsy and the database field is not required
(`required` parametrizes `cls.model._fields[attr].required`), then
parse the liveaction's `start_timestamp` and `end_timestamp` in place;
a liveaction missing either key raises `KeyError` (an unset
liveaction field reads as an empty dict, the `DictField` default). -/
def to_model (prs : String → Int) (required : String → Bool)
    (inst : Dict) : Except PyExc Dict :=
  let model := schema_props.foldl (toModelStep inst required) []
  match (model.lookup "liveaction").getD (JVal.obj []) with
  | JVal.obj lv =>
    match lv.lookup "start_timestamp" with
    | none => Except.error (PyExc.keyError "start_timestamp")
    | some sv =>
      match isoParse prs sv with
      | Except.error e => Except.error e
      | Except.ok sparsed =>
        let lv2 := dictSet lv "start_timestamp" sparsed
        match lv2.lookup "end_timestamp" with
        | none => Except.error (PyExc.keyError "end_timestamp")
        | some ev =>
          match isoParse prs ev with
          | Except.error e => Except.error e
          | Except.ok eparsed =>
            let lv3 := dictSet lv2 "end_timestamp" eparsed
            Except.ok (dictSet model "liveaction" (JVal.obj lv3))
  | _ => Except.error (PyExc.typeError "liveaction is not a dict")

end ActionExecutionAPI

/-! Helper lemmas about the dictionary operations. -/

theorem lookup_dictSet_self (d : Dict) (k : String) (v : JVal) :
    (dictSet d k v).lookup k = some v := by
  induction d with
  | nil => simp [dictSet, List.lookup]
  | cons p rest ih =>
    obtain ⟨k', v'⟩ := p
    by_cases h : k' = k
    · simp [dictSet, h, List.lookup]
    · have hbeq : (k == k') = false := beq_eq_false_iff_ne.mpr (Ne.symm h)
      simp [dictSet, h, List.lookup, ih, hbeq]

theorem lookup_dictSet_ne (d : Dict) (k k' : String) (v : JVal) (h : k' ≠ k) :
    (dictSet d k v).lookup k' = d.lookup k' := by
  have hk : (k' == k) = false := beq_eq_false_iff_ne.mpr h
  induction d with
  | nil => simp [dictSet, List.lookup, hk]
  | cons p rest ih =>
    obtain ⟨k0, v0⟩ := p
    by_cases h0 : k0 = k
    · subst h0
      simp [dictSet, List.lookup, hk]
    · simp only [dictSet, if_neg h0, List.lookup]
      by_cases h1 : k' = k0
      · simp [h1]
      · have h1b : (k' == k0) = false := beq_eq_false_iff_ne.mpr h1
        simp [List.lookup, h1b, ih]

theorem lookup_eq_none_of_notMem (d : Dict) (k : String)
    (h : k ∉ d.map Prod.fst) : d.lookup k = none := by
  induction d with
  | nil => simp [List.lookup]
  | cons p rest ih =>
    obtain ⟨k0, v0⟩ := p
    simp only [List.map, List.mem_cons, not_or] at h
    have hb : (k == k0) = false := beq_eq_false_iff_ne.mpr h.1
    simp [List.lookup, hb, ih h.2]

theorem lookup_dictDel_ne (d : Dict) (k k' : String) (h : k' ≠ k) :
    (dictDel d k).lookup k' = d.lookup k' := by
  have hk : (k' == k) = false := beq_eq_false_iff_ne.mpr h
  induction d with
  | nil => simp [dictDel]
  | cons p rest ih =>
    obtain ⟨k0, v0⟩ := p
    by_cases h0 : k0 = k
    · subst h0
      simp [dictDel, List.lookup, hk]
    · simp only [dictDel, if_neg h0, List.lookup]
      by_cases h1 : k' = k0
      · simp [h1]
      · have h1b : (k' == k0) = false := beq_eq_false_iff_ne.mpr h1
        simp [List.lookup, h1b, ih]

theorem lookup_dictDel_self (d : Dict) (k : String)
    (hnd : (d.map Prod.fst).Nodup) : (dictDel d k).lookup k = none := by
  induction d with
  | nil => simp [dictDel, List.lookup]
  | cons p rest ih =>
    obtain ⟨k0, v0⟩ := p
    simp only [List.map, List.nodup_cons] at hnd
    by_cases h0 : k0 = k
    · subst h0
      simp only [dictDel, if_pos rfl]
      exact lookup_eq_none_of_notMem rest k0 hnd.1
    · have hb : (k == k0) = false := beq_eq_false_iff_ne.mpr (Ne.symm h0)
      simp [dictDel, h0, List.lookup, hb, ih hnd.2]

theorem mem_keys_dictSet (d : Dict) (k k' : String) (v : JVal) :
    k' ∈ (dictSet d k v).map Prod.fst ↔ k' ∈ d.map Prod.fst ∨ k' = k := by
  induction d with
  | nil => simp [dictSet]
  | cons p rest ih =>
    obtain ⟨k0, v0⟩ := p
    by_cases h0 : k0 = k
    · subst h0
      simp only [dictSet, if_pos rfl, List.map, List.mem_cons]
      constructor
      · rintro (h | h)
        · exact Or.inr h
        · exact Or.inl (Or.inr h)
      · rintro ((h | h) | h)
        · exact Or.inl h
        · exact Or.inr h
        · exact Or.inl h
    · simp only [dictSet, if_neg h0, List.map, List.mem_cons, ih]
      tauto

theorem nodup_keys_dictSet (d : Dict) (k : String) (v : JVal)
    (hnd : (d.map Prod.fst).Nodup) : ((dictSet d k v).map Prod.fst).Nodup := by
  induction d with
  | nil => simp [dictSet]
  | cons p rest ih =>
    obtain ⟨k0, v0⟩ := p
    simp only [List.map, List.nodup_cons] at hnd
    by_cases h0 : k0 = k
    · subst h0
      simp only [dictSet, if_pos rfl, List.map, List.nodup_cons]
      exact ⟨hnd.1, hnd.2⟩
    · simp only [dictSet, if_neg h0, List.map, List.nodup_cons]
      refine ⟨?_, ih hnd.2⟩
      intro hmem
      rcases (mem_keys_dictSet rest k k0 v).mp hmem with h | h
      · exact hnd.1 h
      · exact h0 h

theorem lookup_filter_of_pred (d : Dict) (p : String × JVal → Bool) (k : String)
    (v : JVal) (hd : d.lookup k = some v) (hv : p (k, v) = true) :
    (d.filter p).lookup k = some v := by
  induction d with
  | nil => simp [List.lookup] at hd
  | cons q rest ih =>
    obtain ⟨k0, v0⟩ := q
    by_cases h0 : k = k0
    · subst h0
      simp only [List.lookup, beq_self_eq_true] at hd
      cases hd
      simp [List.filter, hv, List.lookup]
    · have hbeq : (k == k0) = false := beq_eq_false_iff_ne.mpr h0
      simp only [List.lookup, hbeq] at hd
      by_cases hp : p (k0, v0)
      · simp [List.filter, hp, List.lookup, hbeq, ih hd]
      · simp [List.filter, hp, ih hd]

theorem dictSet_ne_nil (d : Dict) (k : String) (v : JVal) :
    dictSet d k v ≠ [] := by
  cases d with
  | nil => simp [dictSet]
  | cons p rest =>
    obtain ⟨k0, v0⟩ := p
    by_cases h0 : k0 = k <;> simp [dictSet, h0]

theorem lookup_foldl_dictSet_notMem (kw s : Dict) (k : String)
    (h : k ∉ kw.map Prod.fst) :
    (kw.foldl (fun s p => dictSet s p.1 p.2) s).lookup k = s.lookup k := by
  induction kw generalizing s with
  | nil => simp
  | cons p rest ih =>
    obtain ⟨k0, v0⟩ := p
    simp only [List.map, List.mem_cons, not_or] at h
    simp only [List.foldl]
    rw [ih _ h.2, lookup_dictSet_ne _ _ _ _ h.1]

theorem lookup_foldl_dictSet_mem (kw s : Dict) (k : String)
    (hnd : (kw.map Prod.fst).Nodup) (h : k ∈ kw.map Prod.fst) :
    (kw.foldl (fun s p => dictSet s p.1 p.2) s).lookup k = kw.lookup k := by
  induction kw generalizing s with
  | nil => cases h
  | cons p rest ih =>
    obtain ⟨k0, v0⟩ := p
    simp only [List.map, List.nodup_cons] at hnd
    by_cases h0 : k = k0
    · subst h0
      simp only [List.foldl]
      rw [lookup_foldl_dictSet_notMem _ _ _ hnd.1, lookup_dictSet_self]
      simp [List.lookup]
    · have hb : (k == k0) = false := beq_eq_false_iff_ne.mpr h0
      have hmem : k ∈ rest.map Prod.fst := by
        simp only [List.map, List.mem_cons] at h
        tauto
      simp only [List.foldl, List.lookup, hb]
      exact ih (dictSet s k0 v0) hnd.2 hmem

/-! Claim theorems. -/

/-- With its default `body=None` and `headers=None` — the arguments of
the `_handle_error(e, BAD_REQUEST)` and `_handle_error(e, 500)` call
sites — the assert of `_handle_error` cannot trip: it sets the status
and returns the faultstring body. This certifies the reduced form
written in `callfunction`'s outer handler. -/
theorem handle_error_at_defaults (resp : Response) (m : String) (c : Nat) :
    handle_error resp m c none none =
      ({ resp with status := c },
       Except.ok (CallRet.encoded (json_encode
         (JVal.obj (dictSet [] "faultstring" (JVal.str m)))))) := rfl

/-- C1: every exception raised during handling of a decorated request
that is not a framework HTTP exception (an `Except.error` of the outer
`try` body, paired with the response state at the raise) makes the
wrapper return a JSON-encoded error body containing a `faultstring`
key, with the response status set to 500; the exception does not
propagate (the wrapper returns a plain pair). -/
theorem C1_uncaught_exception_500_faultstring (cfg : JsexposeCfg) (f : WrappedFn)
    (req : Request) (resp : Response) (args : List JVal) (kwargs : Dict) (e : PyExc)
    (respRaise : Response)
    (hraise : callfunctionE cfg f req resp args (stripAuthToken req kwargs) =
      Except.error (e, respRaise))
    (hnothttp : e.isHTTP = false) :
    callfunction cfg f req resp args kwargs =
      ({ respRaise with status := 500 },
       CallRet.encoded (json_encode (JVal.obj [("faultstring", JVal.str e.message)]))) ∧
    ([("faultstring", JVal.str e.message)] : Dict).lookup "faultstring" =
      some (JVal.str e.message) := by
  refine ⟨?_, rfl⟩
  simp [callfunction, hraise, dictSet]

/-- Witness for C1 at a concrete input: a wrapped function raising a
plain exception is answered with status 500 and a faultstring body. -/
theorem C1_witness :
    callfunctionE ⟨none, none, none, "application/json"⟩
        ⟨[], fun _ _ => Except.error (PyExc.other "boom")⟩
        ⟨[], false, Except.ok []⟩ ⟨200, []⟩ [JVal.null]
        (stripAuthToken ⟨[], false, Except.ok []⟩ []) =
      Except.error (PyExc.other "boom", ⟨200, []⟩) ∧
    (PyExc.other "boom").isHTTP = false ∧
    callfunction ⟨none, none, none, "application/json"⟩
        ⟨[], fun _ _ => Except.error (PyExc.other "boom")⟩
        ⟨[], false, Except.ok []⟩ ⟨200, []⟩ [JVal.null] [] =
      ({ status := 500, headers := [] },
       CallRet.encoded (json_encode (JVal.obj [("faultstring", JVal.str "boom")]))) :=
  ⟨rfl, rfl,
    (C1_uncaught_exception_500_faultstring ⟨none, none, none, "application/json"⟩
      ⟨[], fun _ _ => Except.error (PyExc.other "boom")⟩
      ⟨[], false, Except.ok []⟩ ⟨200, []⟩ [JVal.null] [] (PyExc.other "boom")
      ⟨200, []⟩ rfl rfl).1⟩

/-- C2: when `body_cls` is given and constructing it from the request
body raises a jsonschema `ValidationError`, the wrapper answers with
status 400 and a faultstring body, and the wrapped controller function
is never invoked: the result is the same for every wrapped function
with the same argspec. -/
theorem C2_body_validation_error_400 (cfg : JsexposeCfg) (f : WrappedFn)
    (req : Request) (resp : Response) (self : JVal) (rest : List JVal) (kwargs : Dict)
    (bc : Dict → Except PyExc JVal) (st : CoState) (data : Dict) (m : String)
    (hbc : cfg.body_cls = some bc)
    (hco : coercePhase cfg.arg_types f.names rest (stripAuthToken req kwargs) =
      Except.ok st)
    (hdata : (if req.bodyNonempty then req.json else Except.ok []) = Except.ok data)
    (hval : bc data = Except.error (PyExc.validationError m)) :
    ∀ g : WrappedFn, g.names = f.names →
      callfunction cfg g req resp (self :: rest) kwargs =
        ({ resp with status := 400 },
         CallRet.encoded (json_encode (JVal.obj [("faultstring", JVal.str m)]))) := by
  intro g hg
  simp [callfunction, callfunctionE, hg, hco, bodyPhase, hbc, hdata, hval,
    handle_error, dictSet]

/-- Witness for C2 at a concrete input: a failing body class yields the
400 faultstring response. -/
theorem C2_witness :
    callfunction
      ⟨none, some (fun _ => Except.error (PyExc.validationError "bad body")), none,
        "application/json"⟩
      ⟨[], fun _ _ => Except.ok JVal.null⟩ ⟨[], false, Except.ok []⟩ ⟨200, []⟩
      [JVal.null] [] =
      ({ status := 400, headers := [] },
       CallRet.encoded (json_encode (JVal.obj [("faultstring", JVal.str "bad body")]))) :=
  C2_body_validation_error_400
    ⟨none, some (fun _ => Except.error (PyExc.validationError "bad body")), none,
      "application/json"⟩
    ⟨[], fun _ _ => Except.ok JVal.null⟩ ⟨[], false, Except.ok []⟩ ⟨200, []⟩
    JVal.null [] [] (fun _ => Except.error (PyExc.validationError "bad body"))
    ⟨[], [], [], []⟩ [] "bad body" rfl rfl rfl rfl
    ⟨[], fun _ _ => Except.ok JVal.null⟩ rfl

/-- C5: constructing a `BaseAPI` subclass instance from keyword
arguments validates them against the class schema and raises on any
schema violation; when validation succeeds every supplied key is set as
an attribute of the instance with its supplied value. -/
theorem C5_init_validates_and_sets_attrs (validate : Validator) (self0 kw : Dict)
    (hnd : (kw.map Prod.fst).Nodup) :
    (∀ e, validate kw = Except.error e →
        ∃ s, BaseAPI.initAttrs validate self0 kw = Except.error (e, s)) ∧
    (validate kw = Except.ok () →
      ∃ d, BaseAPI.initAttrs validate self0 kw = Except.ok d ∧
        ∀ k, k ∈ kw.map Prod.fst → d.lookup k = kw.lookup k) := by
  constructor
  · intro e he
    exact ⟨self0, by simp [BaseAPI.initAttrs, he]⟩
  · intro hok
    refine ⟨kw.foldl (fun s p => dictSet s p.1 p.2) self0, ?_, ?_⟩
    · simp [BaseAPI.initAttrs, hok]
    · intro k hk
      exact lookup_foldl_dictSet_mem kw self0 k hnd hk

/-- Witness for C5 at a concrete input: a validator requiring a `name`
key rejects an empty argument set and accepts one carrying it, whose
key becomes an attribute. -/
theorem C5_witness :
    ((∀ e, (fun d : Dict => match d.lookup "name" with
        | some _ => Except.ok ()
        | none => Except.error (PyExc.validationError "name required")) [] =
          Except.error e →
        ∃ s, BaseAPI.initAttrs (fun d : Dict => match d.lookup "name" with
          | some _ => Except.ok ()
          | none => Except.error (PyExc.validationError "name required")) [] [] =
          Except.error (e, s)) ∧
      ((fun d : Dict => match d.lookup "name" with
        | some _ => Except.ok ()
        | none => Except.error (PyExc.validationError "name required")) [] =
          Except.ok () →
        ∃ d, BaseAPI.initAttrs (fun d : Dict => match d.lookup "name" with
          | some _ => Except.ok ()
          | none => Except.error (PyExc.validationError "name required")) [] [] =
          Except.ok d ∧
          ∀ k, k ∈ ([] : Dict).map Prod.fst → d.lookup k = List.lookup k ([] : Dict))) ∧
    ((∀ e, (fun d : Dict => match d.lookup "name" with
        | some _ => Except.ok ()
        | none => Except.error (PyExc.validationError "name required"))
          [("name", JVal.str "x")] = Except.error e →
        ∃ s, BaseAPI.initAttrs (fun d : Dict => match d.lookup "name" with
          | some _ => Except.ok ()
          | none => Except.error (PyExc.validationError "name required")) []
          [("name", JVal.str "x")] = Except.error (e, s)) ∧
      ((fun d : Dict => match d.lookup "name" with
        | some _ => Except.ok ()
        | none => Except.error (PyExc.validationError "name required"))
          [("name", JVal.str "x")] = Except.ok () →
        ∃ d, BaseAPI.initAttrs (fun d : Dict => match d.lookup "name" with
          | some _ => Except.ok ()
          | none => Except.error (PyExc.validationError "name required")) []
          [("name", JVal.str "x")] = Except.ok d ∧
          ∀ k, k ∈ ([("name", JVal.str "x")] : Dict).map Prod.fst →
            d.lookup k = List.lookup k ([("name", JVal.str "x")] : Dict))) :=
  ⟨C5_init_validates_and_sets_attrs (fun d : Dict => match d.lookup "name" with
      | some _ => Except.ok ()
      | none => Except.error (PyExc.validationError "name required")) [] []
      (by simp),
   C5_init_validates_and_sets_attrs (fun d : Dict => match d.lookup "name" with
      | some _ => Except.ok ()
      | none => Except.error (PyExc.validationError "name required")) []
      [("name", JVal.str "x")] (by simp)⟩

/-- C4 counterexample: a framework HTTP exception whose
`wsgi_response.body` is a non-empty bytestring does not have its status
reused: `_handle_error` sets the exception's status and headers, then
`assert isinstance(error_body, dict)` fails on the bytestring, and the
resulting `AssertionError` reaches the outer handler, which substitutes
status 500 — exactly what the claim says does not happen. (The
exception's headers, already written before the assert, survive.) -/
theorem C4_counterexample :
    callfunction ⟨none, none, none, "application/json"⟩
      ⟨[], fun _ _ => Except.error (PyExc.httpException 404
        "<html>gone</html>" [("X-Hdr", "y")] "not found")⟩
      ⟨[], false, Except.ok []⟩ ⟨200, []⟩ [JVal.null] [] =
      ({ status := 500, headers := [("X-Hdr", "y")] },
       CallRet.encoded (json_encode (JVal.obj [("faultstring", JVal.str "")]))) ∧
    (500 : Nat) ≠ 404 :=
  ⟨rfl, by decide⟩

/-- C4 amended: for a framework HTTP exception (webob `HTTPException`,
including `HTTPUnauthorized`) raised by the wrapped function, the
wrapper reuses the exception's own status code and headers (when
those are truthy) but not its body, which is a bytestring: when the
body is empty (every freshly raised webob exception) it is replaced by
a fresh dict holding only `faultstring`, and the exception's status
passes through; when the body is non-empty the
`assert isinstance(error_body, dict)` in `_handle_error` fails after
status and headers were already set, and the `AssertionError` reaches
the outer handler, which answers 500 with an empty-message faultstring
and the exception's headers still in place. -/
theorem C4_amended_http_exception_handling (cfg : JsexposeCfg) (f : WrappedFn)
    (req : Request) (resp : Response) (self : JVal) (rest : List JVal)
    (kwargs : Dict) (st : CoState) (more : List JVal) (e : PyExc)
    (hco : coercePhase cfg.arg_types f.names rest (stripAuthToken req kwargs) =
      Except.ok st)
    (hbody : bodyPhase cfg.body_cls req resp st = Except.ok (none, more))
    (hnoop : ¬(cfg.status_code.getD 0 ≠ 0 ∧ cfg.status_code.getD 0 ∈ noop_codes))
    (hf : f.fn (self :: (more ++ st.args)) st.kwargs = Except.error e)
    (hhttp : e.isHTTP = true) (hh : e.httpHeaders ≠ []) :
    (e.httpBody = "" →
      callfunction cfg f req resp (self :: rest) kwargs =
        ({ status := e.httpStatus, headers := e.httpHeaders },
         CallRet.encoded (json_encode
           (JVal.obj [("faultstring", JVal.str e.message)])))) ∧
    (e.httpBody ≠ "" →
      callfunction cfg f req resp (self :: rest) kwargs =
        ({ status := 500, headers := e.httpHeaders },
         CallRet.encoded (json_encode
           (JVal.obj [("faultstring", JVal.str "")])))) := by
  cases e with
  | httpUnauthorized stc bd hd m =>
    cases hd with
    | nil => simp [PyExc.httpHeaders] at hh
    | cons h0 hs =>
      constructor
      · intro hbe
        simp only [PyExc.httpBody] at hbe
        subst hbe
        simp [callfunction, callfunctionE, hco, hbody, hnoop, hf, handle_error,
          PyExc.httpStatus, PyExc.httpHeaders, PyExc.message, dictSet]
      · intro hbne
        simp only [PyExc.httpBody] at hbne
        simp [callfunction, callfunctionE, hco, hbody, hnoop, hf, handle_error,
          hbne, PyExc.httpStatus, PyExc.httpHeaders, PyExc.message, dictSet]
  | httpException stc bd hd m =>
    cases hd with
    | nil => simp [PyExc.httpHeaders] at hh
    | cons h0 hs =>
      constructor
      · intro hbe
        simp only [PyExc.httpBody] at hbe
        subst hbe
        simp [callfunction, callfunctionE, hco, hbody, hnoop, hf, handle_error,
          PyExc.httpStatus, PyExc.httpHeaders, PyExc.message, dictSet]
      · intro hbne
        simp only [PyExc.httpBody] at hbne
        simp [callfunction, callfunctionE, hco, hbody, hnoop, hf, handle_error,
          hbne, PyExc.httpStatus, PyExc.httpHeaders, PyExc.message, dictSet]
  | validationError m => simp [PyExc.isHTTP] at hhttp
  | indexError m => simp [PyExc.isHTTP] at hhttp
  | keyError m => simp [PyExc.isHTTP] at hhttp
  | typeError m => simp [PyExc.isHTTP] at hhttp
  | assertionError m => simp [PyExc.isHTTP] at hhttp
  | other m => simp [PyExc.isHTTP] at hhttp

/-- Witness for C4 amended at concrete inputs: a 404 exception with the
empty body every freshly raised webob exception carries passes its
status and headers through; the same exception with a rendered
non-empty body trips the assert and is answered 500. -/
theorem C4_witness :
    callfunction ⟨none, none, none, "application/json"⟩
      ⟨[], fun _ _ => Except.error (PyExc.httpException 404 ""
        [("X-Hdr", "y")] "not found")⟩
      ⟨[], false, Except.ok []⟩ ⟨200, []⟩ [JVal.null] [] =
      ({ status := (PyExc.httpException 404 "" [("X-Hdr", "y")]
          "not found").httpStatus,
         headers := (PyExc.httpException 404 "" [("X-Hdr", "y")]
          "not found").httpHeaders },
       CallRet.encoded (json_encode (JVal.obj [("faultstring",
         JVal.str (PyExc.httpException 404 "" [("X-Hdr", "y")]
           "not found").message)]))) ∧
    callfunction ⟨none, none, none, "application/json"⟩
      ⟨[], fun _ _ => Except.error (PyExc.httpUnauthorized 401 "denied"
        [("WWW-Authenticate", "Basic")] "unauthorized")⟩
      ⟨[], false, Except.ok []⟩ ⟨200, []⟩ [JVal.null] [] =
      ({ status := 500,
         headers := (PyExc.httpUnauthorized 401 "denied"
          [("WWW-Authenticate", "Basic")] "unauthorized").httpHeaders },
       CallRet.encoded (json_encode (JVal.obj [("faultstring", JVal.str "")]))) :=
  ⟨(C4_amended_http_exception_handling ⟨none, none, none, "application/json"⟩
      ⟨[], fun _ _ => Except.error (PyExc.httpException 404 ""
        [("X-Hdr", "y")] "not found")⟩
      ⟨[], false, Except.ok []⟩ ⟨200, []⟩ JVal.null [] [] ⟨[], [], [], []⟩ []
      (PyExc.httpException 404 "" [("X-Hdr", "y")] "not found")
      rfl rfl (by decide) rfl rfl (by simp [PyExc.httpHeaders])).1 rfl,
   (C4_amended_http_exception_handling ⟨none, none, none, "application/json"⟩
      ⟨[], fun _ _ => Except.error (PyExc.httpUnauthorized 401 "denied"
        [("WWW-Authenticate", "Basic")] "unauthorized")⟩
      ⟨[], false, Except.ok []⟩ ⟨200, []⟩ JVal.null [] [] ⟨[], [], [], []⟩ []
      (PyExc.httpUnauthorized 401 "denied" [("WWW-Authenticate", "Basic")]
        "unauthorized")
      rfl rfl (by decide) rfl rfl (by simp [PyExc.httpHeaders])).2
      (by simp [PyExc.httpBody])⟩

/-- C8 counterexample: with `status_code = 403` (a noop code) and a
`body_cls` whose construction raises a `ValidationError`, the wrapper
answers 400 with a faultstring body instead of setting 403 and
returning the JSON encoding of `None`; so the claim's universally
stated response behavior fails at this input. -/
theorem C8_counterexample :
    callfunction
      ⟨none, some (fun _ => Except.error (PyExc.validationError "bad")), some 403,
        "application/json"⟩
      ⟨[], fun _ _ => Except.ok JVal.null⟩ ⟨[], false, Except.ok []⟩ ⟨200, []⟩
      [JVal.null] [] =
      ({ status := 400, headers := [] },
       CallRet.encoded (json_encode (JVal.obj [("faultstring", JVal.str "bad")]))) ∧
    (400 : Nat) ≠ 403 :=
  ⟨rfl, by decide⟩

/-- C8 amended: for a decorated call whose `status_code` is one of 501,
405 or 403, the wrapped controller function is never invoked (the
result does not depend on it); and provided argument coercion and
request-body construction succeed, the wrapper sets the response status
to that code and returns the JSON encoding of `None`. -/
theorem C8_amended_noop_status (cfg : JsexposeCfg) (f : WrappedFn) (req : Request)
    (resp : Response) (args : List JVal) (kwargs : Dict) (c : Nat)
    (hcode : cfg.status_code = some c) (hnoop : c ∈ noop_codes) :
    (∀ g₁ g₂ : WrappedFn, g₁.names = g₂.names →
      callfunction cfg g₁ req resp args kwargs =
        callfunction cfg g₂ req resp args kwargs) ∧
    (∀ self rest st more, args = self :: rest →
      coercePhase cfg.arg_types f.names rest (stripAuthToken req kwargs) =
        Except.ok st →
      bodyPhase cfg.body_cls req resp st = Except.ok (none, more) →
      callfunction cfg f req resp args kwargs =
        ({ resp with status := c }, CallRet.encoded (json_encode JVal.null))) := by
  have hcs : c = 501 ∨ c = 405 ∨ c = 403 := by simpa [noop_codes] using hnoop
  have hc0 : c ≠ 0 := by rcases hcs with h | h | h <;> simp [h]
  have hcond : cfg.status_code.getD 0 ≠ 0 ∧ cfg.status_code.getD 0 ∈ noop_codes := by
    rw [hcode]
    exact ⟨hc0, hnoop⟩
  constructor
  · intro g₁ g₂ hg
    cases args with
    | nil => rfl
    | cons self rest =>
      cases hc : coercePhase cfg.arg_types g₂.names rest (stripAuthToken req kwargs) with
      | error e => simp [callfunction, callfunctionE, hg, hc]
      | ok st =>
        cases hbp : bodyPhase cfg.body_cls req resp st with
        | error e => simp [callfunction, callfunctionE, hg, hc, hbp]
        | ok pr =>
          obtain ⟨o, more⟩ := pr
          cases o with
          | some r => simp [callfunction, callfunctionE, hg, hc, hbp]
          | none =>
            simp only [callfunction, callfunctionE, hg, hc, hbp]
            rw [if_pos hcond, if_pos hcond]
  · intro self rest st more hargs hco hbody
    subst hargs
    simp only [callfunction, callfunctionE, hco, hbody]
    rw [if_pos hcond]
    simp [hcode]

/-- Witness for C8 amended at a concrete input: with `status_code = 403`
and no body class the wrapper answers 403 with the JSON `null`, and the
result is the same for two wrapped functions with different bodies. -/
theorem C8_witness :
    callfunction ⟨none, none, some 403, "application/json"⟩
      ⟨[], fun _ _ => Except.ok JVal.null⟩ ⟨[], false, Except.ok []⟩ ⟨200, []⟩
      [JVal.null] [] =
      ({ status := 403, headers := [] }, CallRet.encoded (json_encode JVal.null)) ∧
    callfunction ⟨none, none, some 403, "application/json"⟩
      ⟨[], fun _ _ => Except.ok (JVal.str "a")⟩ ⟨[], false, Except.ok []⟩ ⟨200, []⟩
      [JVal.null] [] =
      callfunction ⟨none, none, some 403, "application/json"⟩
      ⟨[], fun _ _ => Except.error (PyExc.other "b")⟩ ⟨[], false, Except.ok []⟩
      ⟨200, []⟩ [JVal.null] [] :=
  ⟨(C8_amended_noop_status ⟨none, none, some 403, "application/json"⟩
      ⟨[], fun _ _ => Except.ok JVal.null⟩ ⟨[], false, Except.ok []⟩ ⟨200, []⟩
      [JVal.null] [] 403 rfl (by decide)).2 JVal.null [] ⟨[], [], [], []⟩ []
      rfl rfl rfl,
   (C8_amended_noop_status ⟨none, none, some 403, "application/json"⟩
      ⟨[], fun _ _ => Except.ok JVal.null⟩ ⟨[], false, Except.ok []⟩ ⟨200, []⟩
      [JVal.null] [] 403 rfl (by decide)).1
      ⟨[], fun _ _ => Except.ok (JVal.str "a")⟩
      ⟨[], fun _ _ => Except.error (PyExc.other "b")⟩ rfl⟩

theorem runCoerce_nil_state (names : List String) (m : List JVal) (kw : Dict) :
    runCoerce names ⟨m, [], [], kw⟩ = Except.ok ⟨m, [], [], kw⟩ := by
  induction names with
  | nil => rfl
  | cons n ns ih => simp [runCoerce, coerceStep, kwAssign, ih]

theorem runCoerce_positional (args : List JVal) (names : List String)
    (types : List ArgType) (ws m : List JVal) (kw : Dict)
    (hlen : args.length ≤ names.length)
    (hz : zipApplyOk types args = some ws) :
    runCoerce names ⟨m, args, types, kw⟩ = Except.ok ⟨m ++ ws, [], [], kw⟩ := by
  induction args generalizing names types ws m with
  | nil =>
    cases types with
    | nil =>
      simp only [zipApplyOk, Option.some.injEq] at hz
      subst hz
      simp [runCoerce_nil_state]
    | cons t ts => simp [zipApplyOk] at hz
  | cons a rest ih =>
    cases types with
    | nil => simp [zipApplyOk] at hz
    | cons t ts =>
      cases names with
      | nil => simp at hlen
      | cons n ns =>
        simp only [zipApplyOk] at hz
        cases hta : t a with
        | error e => rw [hta] at hz; simp at hz
        | ok w =>
          rw [hta] at hz
          cases hzz : zipApplyOk ts rest with
          | none => rw [hzz] at hz; simp at hz
          | some ws2 =>
            rw [hzz] at hz
            simp only [Option.map_some', Option.some.injEq] at hz
            subst hz
            simp only [runCoerce, coerceStep, hta]
            rw [ih ns ts ws2 (m ++ [w]) (Nat.le_of_succ_le_succ hlen) hzz]
            simp

/-- C7 counterexample: with `arg_types` shorter than the supplied
positional arguments, the positional argument without a type definition
is dropped from the call, not passed through unconverted. The wrapped
function reports the positional arguments it receives; it receives only
`self` and the one converted argument, while the claim predicts the
extra argument `2` would be passed through unconverted. -/
theorem C7_counterexample :
    callfunction
      ⟨some [fun x => Except.ok (JVal.arr [x])], none, none, "application/json"⟩
      ⟨["x", "y"], fun recv _ => Except.ok (JVal.arr recv)⟩
      ⟨[], false, Except.ok []⟩ ⟨200, []⟩
      [JVal.null, JVal.num 1, JVal.num 2] [] =
      (⟨200, []⟩, CallRet.encoded (json_encode
        (JVal.arr [JVal.null, JVal.arr [JVal.num 1]]))) ∧
    JVal.arr [JVal.null, JVal.arr [JVal.num 1]] ≠
      JVal.arr [JVal.null, JVal.arr [JVal.num 1], JVal.num 2] := by
  refine ⟨rfl, ?_⟩
  intro h
  injection h with h1
  simp at h1

/-- C7 amended: the wrapper coerces the positional arguments after
`self` by applying the types from `arg_types` in order; a positional
argument whose type definition is missing is dropped (with only a
warning logged); when positional arguments run out, the remaining types
are applied to the keyword arguments matching the remaining parameter
names; a missing type definition for a keyword argument only logs a
warning and leaves the value unconverted; and an absent keyword
argument is skipped, its type having been consumed. -/
theorem C7_amended_coercion (name : String) (names : List String)
    (args ar m : List JVal) (ws : List JVal) (a v w : JVal) (t : ArgType)
    (types ts : List ArgType) (kw : Dict) :
    (args.length ≤ names.length → zipApplyOk types args = some ws →
      runCoerce names ⟨[], args, types, kw⟩ = Except.ok ⟨ws, [], [], kw⟩) ∧
    (t a = Except.ok w →
      coerceStep name ⟨m, a :: ar, t :: ts, kw⟩ =
        Except.ok ⟨m ++ [w], ar, ts, kw⟩) ∧
    (coerceStep name ⟨m, a :: ar, [], kw⟩ = Except.ok ⟨m, ar, [], kw⟩) ∧
    (coerceStep name ⟨m, [], [], kw⟩ = Except.ok ⟨m, [], [], kw⟩) ∧
    (kw.lookup name = some v → t v = Except.ok w →
      coerceStep name ⟨m, [], t :: ts, kw⟩ =
        Except.ok ⟨m, [], ts, dictSet kw name w⟩) ∧
    (kw.lookup name = none →
      coerceStep name ⟨m, [], t :: ts, kw⟩ = Except.ok ⟨m, [], ts, kw⟩) := by
  refine ⟨?_, ?_, ?_, ?_, ?_, ?_⟩
  · intro h1 h2
    simpa using runCoerce_positional args names types ws [] kw h1 h2
  · intro h
    simp [coerceStep, h]
  · simp [coerceStep, kwAssign]
  · simp [coerceStep, kwAssign]
  · intro h1 h2
    simp [coerceStep, kwAssign, h1, h2]
  · intro h1
    simp [coerceStep, kwAssign, h1]

/-- Witness for C7 amended at concrete inputs: the loop converts two
positional arguments in order; a type-less positional argument is
dropped; an exhausted types list leaves keyword arguments unchanged; a
present keyword argument is converted in place; an absent keyword
argument is skipped. -/
theorem C7_amended_witness :
    runCoerce ["x", "y"]
      ⟨[], [JVal.num 1, JVal.num 2],
        [fun x => Except.ok (JVal.arr [x]), fun x => Except.ok x], []⟩ =
      Except.ok ⟨[JVal.arr [JVal.num 1], JVal.num 2], [], [], []⟩ ∧
    coerceStep "x" ⟨[], [JVal.num 3], [fun x => Except.ok (JVal.arr [x])], []⟩ =
      Except.ok ⟨[JVal.arr [JVal.num 3]], [], [], []⟩ ∧
    coerceStep "x" ⟨[], [JVal.num 3], [], []⟩ = Except.ok ⟨[], [], [], []⟩ ∧
    coerceStep "x" ⟨[], [], [], []⟩ = Except.ok ⟨[], [], [], []⟩ ∧
    coerceStep "x" ⟨[], [], [fun x => Except.ok (JVal.arr [x])], [("x", JVal.num 4)]⟩ =
      Except.ok ⟨[], [], [],
        dictSet [("x", JVal.num 4)] "x" (JVal.arr [JVal.num 4])⟩ ∧
    coerceStep "x" ⟨[], [], [fun x => Except.ok (JVal.arr [x])], []⟩ =
      Except.ok ⟨[], [], [], []⟩ :=
  ⟨(C7_amended_coercion "x" ["x", "y"] [JVal.num 1, JVal.num 2] [] []
      [JVal.arr [JVal.num 1], JVal.num 2] JVal.null JVal.null JVal.null
      (fun x => Except.ok (JVal.arr [x]))
      [fun x => Except.ok (JVal.arr [x]), fun x => Except.ok x] [] []).1
      (by decide) rfl,
   (C7_amended_coercion "x" ["x", "y"] [] [] [] [] (JVal.num 3) JVal.null
      (JVal.arr [JVal.num 3]) (fun x => Except.ok (JVal.arr [x])) [] [] []).2.1 rfl,
   (C7_amended_coercion "x" ["x", "y"] [] [] [] [] (JVal.num 3) JVal.null JVal.null
      (fun x => Except.ok (JVal.arr [x])) [] [] []).2.2.1,
   (C7_amended_coercion "x" ["x", "y"] [] [] [] [] JVal.null JVal.null JVal.null
      (fun x => Except.ok (JVal.arr [x])) [] [] []).2.2.2.1,
   (C7_amended_coercion "x" ["x", "y"] [] [] [] [] JVal.null (JVal.num 4)
      (JVal.arr [JVal.num 4]) (fun x => Except.ok (JVal.arr [x])) [] []
      [("x", JVal.num 4)]).2.2.2.2.1 rfl rfl,
   (C7_amended_coercion "x" ["x", "y"] [] [] [] [] JVal.null JVal.null JVal.null
      (fun x => Except.ok (JVal.arr [x])) [] [] []).2.2.2.2.2 rfl⟩

theorem kwAssign_preserves_absent (k name : String) (st st' : CoState)
    (hk : st.kwargs.lookup k = none) (h : kwAssign name st = Except.ok st') :
    st'.kwargs.lookup k = none := by
  cases hty : st.types with
  | nil =>
    simp only [kwAssign, hty] at h
    injection h with h
    subst h
    exact hk
  | cons t trest =>
    cases hlk : st.kwargs.lookup name with
    | none =>
      simp only [kwAssign, hty, hlk] at h
      injection h with h
      subst h
      exact hk
    | some v =>
      have hne : k ≠ name := by
        intro heq
        rw [heq, hlk] at hk
        cases hk
      cases htv : t v with
      | ok v2 =>
        simp only [kwAssign, hty, hlk, htv] at h
        injection h with h
        subst h
        simpa [lookup_dictSet_ne _ _ _ _ hne] using hk
      | error e =>
        simp only [kwAssign, hty, hlk, htv] at h
        cases e with
        | indexError m =>
          injection h with h
          subst h
          exact hk
        | keyError m =>
          injection h with h
          subst h
          exact hk
        | httpUnauthorized s b hd m => cases h
        | httpException s b hd m => cases h
        | validationError m => cases h
        | typeError m => cases h
        | assertionError m => cases h
        | other m => cases h

theorem coerceStep_preserves_absent (k name : String) (st st' : CoState)
    (hk : st.kwargs.lookup k = none) (h : coerceStep name st = Except.ok st') :
    st'.kwargs.lookup k = none := by
  cases hargs : st.args with
  | nil =>
    simp only [coerceStep, hargs] at h
    exact kwAssign_preserves_absent k name st st' hk h
  | cons a argsRest =>
    cases hty : st.types with
    | nil =>
      simp only [coerceStep, hargs, hty] at h
      exact kwAssign_preserves_absent k name
        ⟨st.more, argsRest, [], st.kwargs⟩ st' hk h
    | cons t trest =>
      cases hta : t a with
      | ok v =>
        simp only [coerceStep, hargs, hty, hta] at h
        injection h with h
        subst h
        exact hk
      | error e =>
        cases e with
        | indexError m =>
          simp only [coerceStep, hargs, hty, hta] at h
          exact kwAssign_preserves_absent k name
            ⟨st.more, argsRest, trest, st.kwargs⟩ st' hk h
        | httpUnauthorized s b hd m => simp [coerceStep, hargs, hty, hta] at h
        | httpException s b hd m => simp [coerceStep, hargs, hty, hta] at h
        | validationError m => simp [coerceStep, hargs, hty, hta] at h
        | keyError m => simp [coerceStep, hargs, hty, hta] at h
        | typeError m => simp [coerceStep, hargs, hty, hta] at h
        | assertionError m => simp [coerceStep, hargs, hty, hta] at h
        | other m => simp [coerceStep, hargs, hty, hta] at h

theorem runCoerce_preserves_absent (k : String) (names : List String) :
    ∀ st st' : CoState, st.kwargs.lookup k = none →
      runCoerce names st = Except.ok st' → st'.kwargs.lookup k = none := by
  induction names with
  | nil =>
    intro st st' hk h
    simp only [runCoerce] at h
    injection h with h
    subst h
    exact hk
  | cons n ns ih =>
    intro st st' hk h
    simp only [runCoerce] at h
    cases hcs : coerceStep n st with
    | error e => rw [hcs] at h; cases h
    | ok st2 =>
      rw [hcs] at h
      exact ih st2 st' (coerceStep_preserves_absent k n st st2 hk hcs) h

theorem coercePhase_preserves_absent (k : String) (ats : Option (List ArgType))
    (names : List String) (rest : List JVal) (kw : Dict) (st : CoState)
    (hk : kw.lookup k = none) (h : coercePhase ats names rest kw = Except.ok st) :
    st.kwargs.lookup k = none := by
  cases ats with
  | none =>
    simp only [coercePhase] at h
    injection h with h
    subst h
    exact hk
  | some ts =>
    cases ts with
    | nil =>
      simp only [coercePhase] at h
      injection h with h
      subst h
      exact hk
    | cons t trest =>
      simp only [coercePhase] at h
      exact runCoerce_preserves_absent k names _ st hk h

theorem callfunctionE_fn_agree (cfg : JsexposeCfg) (req : Request) (resp : Response)
    (args : List JVal) (kw : Dict) (f₁ f₂ : WrappedFn)
    (hnames : f₁.names = f₂.names)
    (habs : kw.lookup QUERY_PARAM_ATTRIBUTE_NAME = none)
    (hagree : ∀ as kw2, kw2.lookup QUERY_PARAM_ATTRIBUTE_NAME = none →
      f₁.fn as kw2 = f₂.fn as kw2) :
    callfunctionE cfg f₁ req resp args kw = callfunctionE cfg f₂ req resp args kw := by
  cases args with
  | nil => rfl
  | cons self rest =>
    cases hc : coercePhase cfg.arg_types f₂.names rest kw with
    | error e => simp [callfunctionE, hnames, hc]
    | ok st =>
      have hstk : st.kwargs.lookup QUERY_PARAM_ATTRIBUTE_NAME = none :=
        coercePhase_preserves_absent _ _ _ _ _ _ habs hc
      cases hbp : bodyPhase cfg.body_cls req resp st with
      | error e => simp [callfunctionE, hnames, hc, hbp]
      | ok pr =>
        obtain ⟨o, more⟩ := pr
        cases o with
        | some r => simp [callfunctionE, hnames, hc, hbp]
        | none =>
          simp only [callfunctionE, hnames, hc, hbp]
          rw [hagree _ _ hstk]

/-- C9: when the auth-token query parameter name appears both in the
request's query params and in the keyword arguments, the wrapper
deletes that entry from the keyword arguments before type coercion, and
the wrapped controller function never receives the auth token as a
keyword argument: the response is the same for any two wrapped
functions that agree on token-free keyword arguments. -/
theorem C9_auth_token_stripped (cfg : JsexposeCfg) (req : Request) (resp : Response)
    (args : List JVal) (kwargs : Dict) (f₁ f₂ : WrappedFn)
    (hp : QUERY_PARAM_ATTRIBUTE_NAME ∈ req.params)
    (hk : (kwargs.lookup QUERY_PARAM_ATTRIBUTE_NAME).isSome)
    (hnd : (kwargs.map Prod.fst).Nodup)
    (hnames : f₁.names = f₂.names)
    (hagree : ∀ as kw, kw.lookup QUERY_PARAM_ATTRIBUTE_NAME = none →
      f₁.fn as kw = f₂.fn as kw) :
    stripAuthToken req kwargs = dictDel kwargs QUERY_PARAM_ATTRIBUTE_NAME ∧
    callfunction cfg f₁ req resp args kwargs =
      callfunction cfg f₂ req resp args kwargs := by
  have hstrip : stripAuthToken req kwargs =
      dictDel kwargs QUERY_PARAM_ATTRIBUTE_NAME := by
    simp [stripAuthToken, hp, hk]
  refine ⟨hstrip, ?_⟩
  have habs : (stripAuthToken req kwargs).lookup QUERY_PARAM_ATTRIBUTE_NAME = none := by
    rw [hstrip]
    exact lookup_dictDel_self kwargs _ hnd
  simp only [callfunction]
  rw [callfunctionE_fn_agree cfg req resp args (stripAuthToken req kwargs) f₁ f₂
    hnames habs hagree]

/-- Witness for C9 at a concrete input: a wrapped function that would
leak the token behaves like one that cannot see it, and the token entry
is deleted before coercion. -/
theorem C9_witness :
    stripAuthToken ⟨[QUERY_PARAM_ATTRIBUTE_NAME], false, Except.ok []⟩
      [(QUERY_PARAM_ATTRIBUTE_NAME, JVal.str "secret"), ("a", JVal.num 1)] =
      dictDel [(QUERY_PARAM_ATTRIBUTE_NAME, JVal.str "secret"), ("a", JVal.num 1)]
        QUERY_PARAM_ATTRIBUTE_NAME ∧
    callfunction ⟨none, none, none, "application/json"⟩
      ⟨["a"], fun _ kw => Except.ok (JVal.obj kw)⟩
      ⟨[QUERY_PARAM_ATTRIBUTE_NAME], false, Except.ok []⟩ ⟨200, []⟩ [JVal.null]
      [(QUERY_PARAM_ATTRIBUTE_NAME, JVal.str "secret"), ("a", JVal.num 1)] =
    callfunction ⟨none, none, none, "application/json"⟩
      ⟨["a"], fun _ kw =>
        match kw.lookup QUERY_PARAM_ATTRIBUTE_NAME with
        | some _ => Except.ok (JVal.str "LEAK")
        | none => Except.ok (JVal.obj kw)⟩
      ⟨[QUERY_PARAM_ATTRIBUTE_NAME], false, Except.ok []⟩ ⟨200, []⟩ [JVal.null]
      [(QUERY_PARAM_ATTRIBUTE_NAME, JVal.str "secret"), ("a", JVal.num 1)] :=
  C9_auth_token_stripped ⟨none, none, none, "application/json"⟩
    ⟨[QUERY_PARAM_ATTRIBUTE_NAME], false, Except.ok []⟩ ⟨200, []⟩ [JVal.null]
    [(QUERY_PARAM_ATTRIBUTE_NAME, JVal.str "secret"), ("a", JVal.num 1)]
    ⟨["a"], fun _ kw => Except.ok (JVal.obj kw)⟩
    ⟨["a"], fun _ kw =>
      match kw.lookup QUERY_PARAM_ATTRIBUTE_NAME with
      | some _ => Except.ok (JVal.str "LEAK")
      | none => Except.ok (JVal.obj kw)⟩
    (by simp) rfl (by decide) rfl
    (by
      intro as kw h
      simp [h])

/-- C6: the `from_model` conversion methods consume the persistence
model read-only — their translation threads no write to the model, and
their result depends on the model only through the `to_mongo` mapping,
here witnessed by invariance under the model's remaining internal
state — and `BaseAPI._from_model` renames a present `_id` key to `id`
with its value converted by `str`. -/
theorem C6_from_model_readonly_and_id_rename (validate : Validator)
    (unescape : Dict → Dict) (fmt : Int → String) (d : Dict) (s₁ s₂ : Nat)
    (m : DBModel) (v : JVal)
    (hid : (unescape m.to_mongo).lookup "_id" = some v)
    (hnd : ((unescape m.to_mongo).map Prod.fst).Nodup) :
    (BaseAPI.from_model_doc unescape m).lookup "id" = some (JVal.str (pyStr v)) ∧
    (BaseAPI.from_model_doc unescape m).lookup "_id" = none ∧
    BaseAPI.from_model validate unescape ⟨d, s₁⟩ =
      BaseAPI.from_model validate unescape ⟨d, s₂⟩ ∧
    ActionExecutionAPI.from_model fmt validate unescape ⟨d, s₁⟩ =
      ActionExecutionAPI.from_model fmt validate unescape ⟨d, s₂⟩ := by
  refine ⟨?_, ?_, rfl, rfl⟩
  · simp only [BaseAPI.from_model_doc, hid]
    exact lookup_dictSet_self _ _ _
  · simp only [BaseAPI.from_model_doc, hid]
    rw [lookup_dictSet_ne _ _ _ _ (by decide)]
    exact lookup_dictDel_self _ _ hnd

/-- Witness for C6 at a concrete input: a document with an `_id` entry
has it renamed to a string-valued `id`, and the conversions ignore the
model's internal state. -/
theorem C6_witness :
    (BaseAPI.from_model_doc (fun d => d)
      ⟨[("_id", JVal.num 7), ("name", JVal.str "a")], 0⟩).lookup "id" =
      some (JVal.str (pyStr (JVal.num 7))) ∧
    (BaseAPI.from_model_doc (fun d => d)
      ⟨[("_id", JVal.num 7), ("name", JVal.str "a")], 0⟩).lookup "_id" = none ∧
    BaseAPI.from_model (fun _ => Except.ok ()) (fun d => d) ⟨[("x", JVal.null)], 0⟩ =
      BaseAPI.from_model (fun _ => Except.ok ()) (fun d => d) ⟨[("x", JVal.null)], 1⟩ ∧
    ActionExecutionAPI.from_model (fun t => toString t) (fun _ => Except.ok ())
      (fun d => d) ⟨[("x", JVal.null)], 0⟩ =
    ActionExecutionAPI.from_model (fun t => toString t) (fun _ => Except.ok ())
      (fun d => d) ⟨[("x", JVal.null)], 1⟩ :=
  C6_from_model_readonly_and_id_rename (fun _ => Except.ok ()) (fun d => d)
    (fun t => toString t) [("x", JVal.null)] 0 1
    ⟨[("_id", JVal.num 7), ("name", JVal.str "a")], 0⟩ (JVal.num 7) rfl (by decide)

theorem lookup_foldl_toModelStep_notMem (inst : Dict) (required : String → Bool)
    (props : List String) (model0 : Dict) (k : String) (h : k ∉ props) :
    (props.foldl (ActionExecutionAPI.toModelStep inst required) model0).lookup k =
      model0.lookup k := by
  induction props generalizing model0 with
  | nil => rfl
  | cons p ps ih =>
    simp only [List.mem_cons, not_or] at h
    simp only [List.foldl]
    rw [ih (ActionExecutionAPI.toModelStep inst required model0 p) h.2]
    simp only [ActionExecutionAPI.toModelStep]
    split
    · rfl
    · exact lookup_dictSet_ne _ _ _ _ h.1

theorem to_model_fold_liveaction (inst : Dict) (required : String → Bool)
    (lvv : JVal) (hlv : inst.lookup "liveaction" = some lvv)
    (htr : truthy lvv = true) :
    (ActionExecutionAPI.schema_props.foldl
      (ActionExecutionAPI.toModelStep inst required) []).lookup "liveaction" =
      some lvv := by
  have hsp : ActionExecutionAPI.schema_props =
      ["id", "trigger", "trigger_type", "trigger_instance", "rule", "action",
       "runner"] ++ "liveaction" :: ["parent", "children"] := rfl
  rw [hsp, List.foldl_append]
  generalize List.foldl (ActionExecutionAPI.toModelStep inst required) []
    ["id", "trigger", "trigger_type", "trigger_instance", "rule", "action",
     "runner"] = M
  rw [show List.foldl (ActionExecutionAPI.toModelStep inst required) M
        ("liveaction" :: ["parent", "children"]) =
      List.foldl (ActionExecutionAPI.toModelStep inst required)
        (ActionExecutionAPI.toModelStep inst required M "liveaction")
        ["parent", "children"] from rfl]
  rw [lookup_foldl_toModelStep_notMem _ _ _ _ _ (by decide)]
  unfold ActionExecutionAPI.toModelStep
  rw [hlv]
  simp [htr, lookup_dictSet_self]

/-- C3 counterexample: an execution record whose liveaction has a
start_timestamp but no end_timestamp converts fine through
`ActionExecutionAPI.from_model` (which guards the absent end), but
`ActionExecutionAPI.to_model` unconditionally parses
`liveaction['end_timestamp']` and raises a `KeyError`, so the
round-trip does not restore the record's timestamps. -/
theorem C3_counterexample :
    ActionExecutionAPI.from_model (fun t => toString t) (fun _ => Except.ok ())
      (fun d => d)
      ⟨[("liveaction", JVal.obj [("start_timestamp", JVal.time 5)])], 0⟩ =
      Except.ok [("liveaction", JVal.obj [("start_timestamp",
        JVal.str (toString (5 : Int)))])] ∧
    ActionExecutionAPI.to_model (fun _ => 0) (fun _ => true)
      [("liveaction", JVal.obj [("start_timestamp", JVal.str (toString (5 : Int)))])] =
      Except.error (PyExc.keyError "end_timestamp") :=
  ⟨rfl, rfl⟩

/-- C3 amended: for an execution record whose liveaction carries both a
start and an end timestamp, the round-trip through
`ActionExecutionAPI.from_model` and `ActionExecutionAPI.to_model`
restores both timestamp values, assuming `isotime.parse` inverts
`isotime.format` at those values; a record without an end_timestamp
makes `to_model` raise a `KeyError` instead. -/
theorem C3_amended_roundtrip (fmt : Int → String) (prs : String → Int)
    (validate : Validator) (unescape : Dict → Dict) (required : String → Bool)
    (m : DBModel) (lv : Dict) (t0 t1 : Int)
    (hval : ∀ d, validate d = Except.ok ())
    (hdoc : (BaseAPI.from_model_doc unescape m).lookup "liveaction" =
      some (JVal.obj lv))
    (hst : lv.lookup "start_timestamp" = some (JVal.time t0))
    (hen : lv.lookup "end_timestamp" = some (JVal.time t1))
    (hs : prs (fmt t0) = t0) (he : prs (fmt t1) = t1) :
    ∃ attrs model',
      ActionExecutionAPI.from_model fmt validate unescape m = Except.ok attrs ∧
      ActionExecutionAPI.to_model prs required attrs = Except.ok model' ∧
      ∃ lvf, model'.lookup "liveaction" = some (JVal.obj lvf) ∧
        lvf.lookup "start_timestamp" = some (JVal.time t0) ∧
        lvf.lookup "end_timestamp" = some (JVal.time t1) := by
  have hfm : ActionExecutionAPI.from_model fmt validate unescape m =
      Except.ok (((dictSet (BaseAPI.from_model_doc unescape m) "liveaction"
        (JVal.obj (dictSet (dictSet lv "end_timestamp" (JVal.str (fmt t1)))
          "start_timestamp" (JVal.str (fmt t0)))))).filter (fun p => truthy p.2)) := by
    simp only [ActionExecutionAPI.from_model, hdoc, hst, hen,
      ActionExecutionAPI.isoFormat, hval]
  have hattrslv : (((dictSet (BaseAPI.from_model_doc unescape m) "liveaction"
      (JVal.obj (dictSet (dictSet lv "end_timestamp" (JVal.str (fmt t1)))
        "start_timestamp" (JVal.str (fmt t0)))))).filter
          (fun p => truthy p.2)).lookup "liveaction" =
      some (JVal.obj (dictSet (dictSet lv "end_timestamp" (JVal.str (fmt t1)))
        "start_timestamp" (JVal.str (fmt t0)))) := by
    apply lookup_filter_of_pred
    · exact lookup_dictSet_self _ _ _
    · cases hlv3 : dictSet (dictSet lv "end_timestamp" (JVal.str (fmt t1)))
        "start_timestamp" (JVal.str (fmt t0)) with
      | nil => exact absurd hlv3 (dictSet_ne_nil _ _ _)
      | cons p ps => simp [truthy]
  have hfold := to_model_fold_liveaction
    (((dictSet (BaseAPI.from_model_doc unescape m) "liveaction"
      (JVal.obj (dictSet (dictSet lv "end_timestamp" (JVal.str (fmt t1)))
        "start_timestamp" (JVal.str (fmt t0)))))).filter (fun p => truthy p.2))
    required _ hattrslv (by
      cases hlv3 : dictSet (dictSet lv "end_timestamp" (JVal.str (fmt t1)))
        "start_timestamp" (JVal.str (fmt t0)) with
      | nil => exact absurd hlv3 (dictSet_ne_nil _ _ _)
      | cons p ps => simp [truthy])
  have h1 : (dictSet (dictSet lv "end_timestamp" (JVal.str (fmt t1)))
      "start_timestamp" (JVal.str (fmt t0))).lookup "start_timestamp" =
      some (JVal.str (fmt t0)) := lookup_dictSet_self _ _ _
  have h2 : (dictSet (dictSet (dictSet lv "end_timestamp" (JVal.str (fmt t1)))
      "start_timestamp" (JVal.str (fmt t0))) "start_timestamp"
      (JVal.time t0)).lookup "end_timestamp" =
      some (JVal.str (fmt t1)) := by
    rw [lookup_dictSet_ne _ _ _ _ (by decide),
      lookup_dictSet_ne _ _ _ _ (by decide)]
    exact lookup_dictSet_self _ _ _
  have htm : ActionExecutionAPI.to_model prs required
      (((dictSet (BaseAPI.from_model_doc unescape m) "liveaction"
        (JVal.obj (dictSet (dictSet lv "end_timestamp" (JVal.str (fmt t1)))
          "start_timestamp" (JVal.str (fmt t0)))))).filter (fun p => truthy p.2)) =
      Except.ok (dictSet
        (ActionExecutionAPI.schema_props.foldl
          (ActionExecutionAPI.toModelStep
            (((dictSet (BaseAPI.from_model_doc unescape m) "liveaction"
              (JVal.obj (dictSet (dictSet lv "end_timestamp" (JVal.str (fmt t1)))
                "start_timestamp" (JVal.str (fmt t0)))))).filter
                  (fun p => truthy p.2)) required) [])
        "liveaction" (JVal.obj (dictSet (dictSet (dictSet (dictSet lv
          "end_timestamp" (JVal.str (fmt t1))) "start_timestamp"
          (JVal.str (fmt t0))) "start_timestamp" (JVal.time t0))
          "end_timestamp" (JVal.time t1)))) := by
    simp only [ActionExecutionAPI.to_model, hfold, Option.getD_some, h1,
      ActionExecutionAPI.isoParse, hs, h2, he]
  refine ⟨_, _, hfm, htm, _, lookup_dictSet_self _ _ _, ?_, ?_⟩
  · rw [lookup_dictSet_ne _ _ _ _ (by decide)]
    exact lookup_dictSet_self _ _ _
  · exact lookup_dictSet_self _ _ _

/-- Witness for C3 amended at a concrete input: a record with both
timestamps round-trips to the original datetime values. -/
theorem C3_witness :
    ∃ attrs model',
      ActionExecutionAPI.from_model (fun _ => "iso") (fun _ => Except.ok ())
        (fun d => d)
        ⟨[("liveaction", JVal.obj [("start_timestamp", JVal.time 7),
          ("end_timestamp", JVal.time 7)])], 0⟩ = Except.ok attrs ∧
      ActionExecutionAPI.to_model (fun _ => 7) (fun _ => true) attrs =
        Except.ok model' ∧
      ∃ lvf, model'.lookup "liveaction" = some (JVal.obj lvf) ∧
        lvf.lookup "start_timestamp" = some (JVal.time 7) ∧
        lvf.lookup "end_timestamp" = some (JVal.time 7) :=
  C3_amended_roundtrip (fun _ => "iso") (fun _ => 7) (fun _ => Except.ok ())
    (fun d => d) (fun _ => true)
    ⟨[("liveaction", JVal.obj [("start_timestamp", JVal.time 7),
      ("end_timestamp", JVal.time 7)])], 0⟩
    [("start_timestamp", JVal.time 7), ("end_timestamp", JVal.time 7)] 7 7
    (fun _ => rfl) rfl rfl rfl rfl rfl

/-- C10: `BaseAPI` construction is atomic with respect to validation
errors: when the schema validator raises, the instance's attribute
mapping is still exactly what it was before the call, because
validation is the first statement of `__init__`. -/
theorem C10_init_atomic_on_validation_error (validate : Validator)
    (self0 kw : Dict) (e : PyExc) (h : validate kw = Except.error e) :
    BaseAPI.initAttrs validate self0 kw = Except.error (e, self0) := by
  simp [BaseAPI.initAttrs, h]

/-- Witness for C10 at a concrete input: a failing validator leaves the
pre-existing attribute mapping untouched. -/
theorem C10_witness :
    (fun _ : Dict => Except.error (PyExc.validationError "boom")) [("a", JVal.num 2)] =
      (Except.error (PyExc.validationError "boom") : Except PyExc Unit) ∧
    BaseAPI.initAttrs (fun _ => Except.error (PyExc.validationError "boom"))
      [("pre", JVal.num 1)] [("a", JVal.num 2)] =
      Except.error (PyExc.validationError "boom", [("pre", JVal.num 1)]) :=
  ⟨rfl, C10_init_atomic_on_validation_error
    (fun _ => Except.error (PyExc.validationError "boom"))
    [("pre", JVal.num 1)] [("a", JVal.num 2)] (PyExc.validationError "boom") rfl⟩

end St2
